import Mathlib

/-!
Verification of the log-buffering facade of the `fit` repository
(package `logger`, file `src/unnamed/part_001`).

The embedding models the two source files of the `logger` package:
the shared state (`queue`, a buffered Go channel of capacity 100, and
`queueClosed`, an atomic boolean), the public facade
(`LogTrace` .. `LogPanic`, `MarkInitialized`) and the drainer
(`processQueue`).  The Go channel is modelled as a FIFO list bounded by
`queueCapacity`; the external sink (the zerolog writer) is modelled as
the list of records it has received, in order.  `log.Fatal().Msg` and
`log.Panic().Msg` of zerolog write their record and then terminate the
process, which the model records in the `exited` and `panicked` flags.
-/

namespace Logger

/-- A buffered log record, mirroring `type logOperation struct` of the
source: a severity level string and a fully formatted message. -/
structure logOperation where
  level : String
  message : String
deriving DecidableEq

/-- The severity levels the zerolog sink distinguishes, one per branch of
the `switch` in `sublogWrapper`. -/
inductive SinkLevel where
  | trace
  | debug
  | info
  | warn
  | error
  | fatal
  | panic
deriving DecidableEq

/-- A record as received by the sink: the resolved zerolog level together
with the message string. -/
structure SinkEntry where
  level : SinkLevel
  message : String
deriving DecidableEq

/-- Capacity of the backlog channel, from `make(chan logOperation, 100)`
in the `init` function of the source. -/
def queueCapacity : Nat := 100

/-- Splits a character list at each occurrence of the two character verb
sequence percent v, mirroring the verb scan of Go fmt. -/
def splitVerbs : List Char → List (List Char)
  | [] => [[]]
  | '%' :: 'v' :: rest => [] :: splitVerbs rest
  | c :: rest =>
    match splitVerbs rest with
    | [] => [[c]]
    | p :: ps => (c :: p) :: ps

/-- Joins rendered arguments with a comma separator, for the marker Go
fmt appends when a format receives surplus arguments. -/
def joinArgs : List (List Char) → List Char
  | [] => []
  | [a] => a
  | a :: b :: rest => a ++ ", ".data ++ joinArgs (b :: rest)

/-- Splices argument texts into the pieces obtained by splitting a
format at its verbs, one argument per verb, marking missing and surplus
arguments the way Go fmt does. -/
def spliceArgs : List (List Char) → List (List Char) → List Char
  | [], _ => []
  | [piece], [] => piece
  | [piece], a :: rest => piece ++ "%!(EXTRA ".data ++ joinArgs (a :: rest) ++ ")".data
  | piece :: next :: pieces, [] => piece ++ "%!v(MISSING)".data ++ spliceArgs (next :: pieces) []
  | piece :: next :: pieces, a :: rest => piece ++ a ++ spliceArgs (next :: pieces) rest

/-- Models `fmt.Sprintf` of the Go standard library (an external
collaborator of `logWrapper`), restricted to the `%v` verb: the format
string is split at each verb and the arguments, already rendered as
text, are substituted in order. -/
def sprintf (format : String) (args : List String) : String :=
  ⟨spliceArgs (splitVerbs format.data) (args.map String.data)⟩

/-- The process-wide state of the `logger` package together with the
observable effects of the external sink.  `queue` and `queueClosed`
mirror the two package-level variables; `closeCount` counts executions
of `close(queue)` and `drainerStartCount` counts executions of
`go processQueue()`; `sink` is the list of records the zerolog writer
has received, in order; `exited` and `panicked` record process
termination by `log.Fatal` respectively `log.Panic`. -/
structure LoggerState where
  queue : List logOperation
  queueClosed : Bool
  closeCount : Nat
  drainerStartCount : Nat
  sink : List SinkEntry
  exited : Bool
  panicked : Bool
deriving DecidableEq

/-- The state right after the package-level `init` function ran:
an empty open queue, no drainer, nothing written. -/
def initState : LoggerState :=
  { queue := []
    queueClosed := false
    closeCount := 0
    drainerStartCount := 0
    sink := []
    exited := false
    panicked := false }

/-- The level dispatch of the `switch` statement in `sublogWrapper`:
seven recognized level strings, everything else defaulting to Info. -/
def resolveLevel (level : String) : SinkLevel :=
  if level = "debug" then SinkLevel.debug
  else if level = "info" then SinkLevel.info
  else if level = "warn" then SinkLevel.warn
  else if level = "error" then SinkLevel.error
  else if level = "fatal" then SinkLevel.fatal
  else if level = "panic" then SinkLevel.panic
  else if level = "trace" then SinkLevel.trace
  else SinkLevel.info

/-- Embeds `sublogWrapper(level, message)`: the record is written to the
sink at the resolved level; the zerolog `Fatal` and `Panic` events
additionally terminate the process after writing. -/
def sublogWrapper (st : LoggerState) (level message : String) : LoggerState :=
  let st1 := { st with sink := st.sink ++ [⟨resolveLevel level, message⟩] }
  if resolveLevel level = SinkLevel.fatal then { st1 with exited := true }
  else if resolveLevel level = SinkLevel.panic then { st1 with panicked := true }
  else st1

/-- Embeds `logWrapper(level, format, args...)`: the message is formatted
eagerly, then either buffered (non-blocking send, dropping on a full
queue) while `queueClosed` is false, or written directly to the sink.
The atomic load and the channel send are one step here; the fine-grained
interleaving of those two lines is modelled separately below. -/
def logWrapper (st : LoggerState) (level format : String) (args : List String) : LoggerState :=
  let message := sprintf format args
  if st.queueClosed = false then
    if st.queue.length < queueCapacity then
      { st with queue := st.queue ++ [⟨level, message⟩] }
    else
      st
  else
    sublogWrapper st level message

/-- Embeds `LogTrace`. -/
def LogTrace (st : LoggerState) (format : String) (args : List String) : LoggerState :=
  logWrapper st "trace" format args

/-- Embeds `LogDebug`. -/
def LogDebug (st : LoggerState) (format : String) (args : List String) : LoggerState :=
  logWrapper st "debug" format args

/-- Embeds `LogInfo`. -/
def LogInfo (st : LoggerState) (format : String) (args : List String) : LoggerState :=
  logWrapper st "info" format args

/-- Embeds `LogWarn`. -/
def LogWarn (st : LoggerState) (format : String) (args : List String) : LoggerState :=
  logWrapper st "warn" format args

/-- Embeds `LogError`. -/
def LogError (st : LoggerState) (format : String) (args : List String) : LoggerState :=
  logWrapper st "error" format args

/-- Embeds `LogFatal`. -/
def LogFatal (st : LoggerState) (format : String) (args : List String) : LoggerState :=
  logWrapper st "fatal" format args

/-- Embeds `LogPanic`. -/
def LogPanic (st : LoggerState) (format : String) (args : List String) : LoggerState :=
  logWrapper st "panic" format args

/-- Embeds `MarkInitialized`: when the queue is still open it stores true
into `queueClosed`, closes the queue, starts the drainer, and in every
case then logs the Info record Logger initialized through `LogInfo`. -/
def MarkInitialized (st : LoggerState) : LoggerState :=
  let st1 :=
    if st.queueClosed = false then
      { st with
          queueClosed := true
          closeCount := st.closeCount + 1
          drainerStartCount := st.drainerStartCount + 1 }
    else
      st
  LogInfo st1 "Logger initialized" []

/-- One iteration of the `for op := range queue` loop of `processQueue`:
if a drainer has been started and the closed queue still holds records,
the oldest record is removed and handed to `sublogWrapper`. -/
def drainStep (st : LoggerState) : LoggerState :=
  if st.drainerStartCount = 0 then
    st
  else
    match st.queue with
    | [] => st
    | op :: rest => sublogWrapper { st with queue := rest } op.level op.message

/-- A schedulable event of the system: a facade call, a call to
`MarkInitialized`, or the drainer goroutine performing one loop
iteration. -/
inductive Op where
  | log (level format : String) (args : List String)
  | markInit
  | drain
deriving DecidableEq

/-- Executes one event.  A process that has exited or panicked performs
no further steps. -/
def applyOp (st : LoggerState) (op : Op) : LoggerState :=
  if st.exited = true ∨ st.panicked = true then
    st
  else
    match op with
    | Op.log level format args => logWrapper st level format args
    | Op.markInit => MarkInitialized st
    | Op.drain => drainStep st

/-- Executes a schedule of events in order. -/
def run (ops : List Op) (st : LoggerState) : LoggerState :=
  ops.foldl applyOp st

/-- Embeds `processQueue` run to completion: the drainer performs one
loop iteration per record buffered in the (closed) queue. -/
def processQueue (st : LoggerState) : LoggerState :=
  run (List.replicate st.queue.length Op.drain) st

/-- A facade call as issued by a caller: the level picked by the chosen
facade function, the format string, and the rendered arguments. -/
structure LogCall where
  level : String
  format : String
  args : List String
deriving DecidableEq

/-- The record a call buffers: level and eagerly formatted message. -/
def callRecord (c : LogCall) : logOperation :=
  ⟨c.level, sprintf c.format c.args⟩

/-- The sink entry a buffered record produces when drained. -/
def opEntry (op : logOperation) : SinkEntry :=
  ⟨resolveLevel op.level, op.message⟩

/-- The sink entry a call eventually produces. -/
def callEntry (c : LogCall) : SinkEntry :=
  ⟨resolveLevel c.level, sprintf c.format c.args⟩

/-- Issues a sequence of facade calls, one after the other. -/
def runCalls (st : LoggerState) (calls : List LogCall) : LoggerState :=
  calls.foldl (fun s c => logWrapper s c.level c.format c.args) st

/-!
Fine-grained interleaving model.  In the source, `logWrapper` reads the
atomic `queueClosed` on one line and performs the select with the
channel send on the next, while `MarkInitialized` reads `queueClosed`,
stores true and calls `close(queue)` on three consecutive lines.  Those
individual machine steps can interleave across goroutines, which the
coarse model above cannot express; the model below splits the two
functions into their atomic steps for one logging goroutine racing one
initializing goroutine.  Per the Go language specification, a send on a
closed channel, and closing an already closed channel, are runtime
panics. -/

/-- Global state for the fine-grained race model: the shared variables,
the local state of one goroutine inside `logWrapper` (the record it is
carrying and the `queueClosed` value it loaded) and of one goroutine
inside `MarkInitialized` (the value it loaded and whether it has
stored), plus the sink and a flag recording a runtime panic. -/
structure FineState where
  queue : List logOperation
  chanClosed : Bool
  queueClosed : Bool
  inflight : logOperation
  loggerSaw : Option Bool
  loggerDone : Bool
  initSaw : Option Bool
  initStored : Bool
  sink : List SinkEntry
  panicked : Bool
deriving DecidableEq

/-- Atomic steps of the two racing goroutines.  `loggerLoad` and
`loggerResume` are the two halves of `logWrapper` (the atomic load on
line 16 of the source, then the branch it chose: the select with the
non-blocking send, or the direct `sublogWrapper` call); `initLoad`,
`initStore` and `initClose` are lines 89 to 91 of `MarkInitialized`. -/
inductive FineStep where
  | loggerLoad
  | loggerResume
  | initLoad
  | initStore
  | initClose
deriving DecidableEq

/-- Executes one atomic step of the race model.  A step that is not
enabled (program counter not at that line) or follows a panic leaves the
state unchanged. -/
def fineStep (st : FineState) : FineStep → FineState
  | FineStep.loggerLoad =>
    if st.panicked = true ∨ st.loggerDone = true ∨ st.loggerSaw ≠ none then st
    else { st with loggerSaw := some st.queueClosed }
  | FineStep.loggerResume =>
    if st.panicked = true ∨ st.loggerDone = true then st
    else
      match st.loggerSaw with
      | none => st
      | some false =>
        -- the select: a send on a closed channel is a runtime panic;
        -- otherwise the send is ready only while the buffer has room,
        -- and the default case drops the record
        if st.chanClosed = true then { st with panicked := true }
        else if st.queue.length < queueCapacity then
          { st with queue := st.queue ++ [st.inflight], loggerDone := true }
        else { st with loggerDone := true }
      | some true =>
        { st with
            sink := st.sink ++ [⟨resolveLevel st.inflight.level, st.inflight.message⟩]
            loggerDone := true }
  | FineStep.initLoad =>
    if st.panicked = true ∨ st.initSaw ≠ none then st
    else { st with initSaw := some st.queueClosed }
  | FineStep.initStore =>
    if st.panicked = true ∨ st.initSaw ≠ some false ∨ st.initStored = true then st
    else { st with queueClosed := true, initStored := true }
  | FineStep.initClose =>
    if st.panicked = true ∨ st.initStored = false then st
    else if st.chanClosed = true then { st with panicked := true }
    else { st with chanClosed := true }

/-- Initial state of the race model: queue open and empty, one goroutine
about to execute `logWrapper` with an already formatted Info record, one
goroutine about to execute `MarkInitialized`. -/
def fineInit : FineState :=
  { queue := []
    chanClosed := false
    queueClosed := false
    inflight := ⟨"info", "early record"⟩
    loggerSaw := none
    loggerDone := false
    initSaw := none
    initStored := false
    sink := []
    panicked := false }

/-- Executes a fine-grained interleaving. -/
def fineRun (steps : List FineStep) (st : FineState) : FineState :=
  steps.foldl fineStep st

/-- The sink record `MarkInitialized` emits. -/
def initEntry : SinkEntry :=
  ⟨SinkLevel.info, "Logger initialized"⟩

/-!
Basic lemmas about the embedded operations.
-/

theorem sprintf_logger_initialized : sprintf "Logger initialized" [] = "Logger initialized" := by
  decide

theorem sublogWrapper_sink (st : LoggerState) (lv m : String) :
    (sublogWrapper st lv m).sink = st.sink ++ [⟨resolveLevel lv, m⟩] := by
  unfold sublogWrapper
  split
  · rfl
  · split <;> rfl

theorem sublogWrapper_queue (st : LoggerState) (lv m : String) :
    (sublogWrapper st lv m).queue = st.queue := by
  unfold sublogWrapper
  split
  · rfl
  · split <;> rfl

theorem sublogWrapper_queueClosed (st : LoggerState) (lv m : String) :
    (sublogWrapper st lv m).queueClosed = st.queueClosed := by
  unfold sublogWrapper
  split
  · rfl
  · split <;> rfl

theorem sublogWrapper_closeCount (st : LoggerState) (lv m : String) :
    (sublogWrapper st lv m).closeCount = st.closeCount := by
  unfold sublogWrapper
  split
  · rfl
  · split <;> rfl

theorem sublogWrapper_drainerStartCount (st : LoggerState) (lv m : String) :
    (sublogWrapper st lv m).drainerStartCount = st.drainerStartCount := by
  unfold sublogWrapper
  split
  · rfl
  · split <;> rfl

theorem resolveLevel_ne_fatal (lv : String) (h : lv ≠ "fatal") :
    resolveLevel lv ≠ SinkLevel.fatal := by
  unfold resolveLevel
  split_ifs <;> simp_all

theorem resolveLevel_ne_panic (lv : String) (h : lv ≠ "panic") :
    resolveLevel lv ≠ SinkLevel.panic := by
  unfold resolveLevel
  split_ifs <;> simp_all

theorem sublogWrapper_of_plain (st : LoggerState) (lv m : String)
    (hf : resolveLevel lv ≠ SinkLevel.fatal) (hp : resolveLevel lv ≠ SinkLevel.panic) :
    sublogWrapper st lv m = { st with sink := st.sink ++ [⟨resolveLevel lv, m⟩] } := by
  simp only [sublogWrapper, if_neg hf, if_neg hp]

theorem logWrapper_buffers (st : LoggerState) (lv f : String) (args : List String)
    (hopen : st.queueClosed = false) (hroom : st.queue.length < queueCapacity) :
    logWrapper st lv f args = { st with queue := st.queue ++ [⟨lv, sprintf f args⟩] } := by
  unfold logWrapper
  simp [hopen, hroom]

theorem logWrapper_drops (st : LoggerState) (lv f : String) (args : List String)
    (hopen : st.queueClosed = false) (hfull : ¬ st.queue.length < queueCapacity) :
    logWrapper st lv f args = st := by
  unfold logWrapper
  simp [hopen, hfull]

theorem logWrapper_direct (st : LoggerState) (lv f : String) (args : List String)
    (hclosed : st.queueClosed = true) :
    logWrapper st lv f args = sublogWrapper st lv (sprintf f args) := by
  unfold logWrapper
  simp [hclosed]

theorem MarkInitialized_open (st : LoggerState) (hopen : st.queueClosed = false) :
    MarkInitialized st =
      { st with
          queueClosed := true
          closeCount := st.closeCount + 1
          drainerStartCount := st.drainerStartCount + 1
          sink := st.sink ++ [initEntry] } := by
  have h1 : resolveLevel "info" = SinkLevel.info := by decide
  unfold MarkInitialized LogInfo
  rw [if_pos hopen, logWrapper_direct _ _ _ _ rfl, sprintf_logger_initialized,
    sublogWrapper_of_plain _ _ _ (by decide) (by decide)]
  simp [initEntry, h1]

theorem MarkInitialized_closed (st : LoggerState) (hclosed : st.queueClosed = true) :
    MarkInitialized st = { st with sink := st.sink ++ [initEntry] } := by
  have h1 : resolveLevel "info" = SinkLevel.info := by decide
  unfold MarkInitialized LogInfo
  rw [if_neg (by rw [hclosed]; exact fun h => absurd h (by decide)),
    logWrapper_direct _ _ _ _ hclosed, sprintf_logger_initialized,
    sublogWrapper_of_plain _ _ _ (by decide) (by decide)]
  simp [initEntry, h1]

theorem applyOp_dead (st : LoggerState) (op : Op)
    (h : st.exited = true ∨ st.panicked = true) :
    applyOp st op = st := by
  unfold applyOp
  simp [h]

theorem applyOp_log (st : LoggerState) (lv f : String) (args : List String)
    (he : st.exited = false) (hp : st.panicked = false) :
    applyOp st (Op.log lv f args) = logWrapper st lv f args := by
  unfold applyOp
  simp [he, hp]

theorem applyOp_markInit (st : LoggerState)
    (he : st.exited = false) (hp : st.panicked = false) :
    applyOp st Op.markInit = MarkInitialized st := by
  unfold applyOp
  simp [he, hp]

theorem applyOp_drain (st : LoggerState)
    (he : st.exited = false) (hp : st.panicked = false) :
    applyOp st Op.drain = drainStep st := by
  unfold applyOp
  simp [he, hp]

theorem drainStep_noDrainer (st : LoggerState) (hz : st.drainerStartCount = 0) :
    drainStep st = st := by
  unfold drainStep
  rw [if_pos hz]

theorem drainStep_empty (st : LoggerState) (hz : ¬ st.drainerStartCount = 0)
    (hq : st.queue = []) :
    drainStep st = st := by
  unfold drainStep
  rw [if_neg hz, hq]

theorem run_nil (st : LoggerState) : run [] st = st := rfl

theorem run_cons (op : Op) (ops : List Op) (st : LoggerState) :
    run (op :: ops) st = run ops (applyOp st op) := rfl

theorem run_append (ops1 ops2 : List Op) (st : LoggerState) :
    run (ops1 ++ ops2) st = run ops2 (run ops1 st) := by
  unfold run
  exact List.foldl_append _ _ _ _

theorem run_dead (ops : List Op) (st : LoggerState)
    (h : st.exited = true ∨ st.panicked = true) :
    run ops st = st := by
  induction ops with
  | nil => rfl
  | cons op ops ih => rw [run_cons, applyOp_dead st op h, ih]

theorem runCalls_nil (st : LoggerState) : runCalls st [] = st := rfl

theorem runCalls_cons (st : LoggerState) (c : LogCall) (cs : List LogCall) :
    runCalls st (c :: cs) = runCalls (logWrapper st c.level c.format c.args) cs := rfl

theorem runCalls_buffers (calls : List LogCall) (st : LoggerState)
    (hopen : st.queueClosed = false)
    (hroom : st.queue.length + calls.length ≤ queueCapacity) :
    runCalls st calls = { st with queue := st.queue ++ calls.map callRecord } := by
  induction calls generalizing st with
  | nil => simp [runCalls_nil]
  | cons c cs ih =>
    have hlt : st.queue.length < queueCapacity := by
      simp only [List.length_cons] at hroom
      omega
    rw [runCalls_cons, logWrapper_buffers st c.level c.format c.args hopen hlt]
    rw [ih { st with queue := st.queue ++ [⟨c.level, sprintf c.format c.args⟩] } hopen
      (by simp only [List.length_cons] at hroom; simp; omega)]
    simp [callRecord, List.append_assoc]

theorem runCalls_drops (calls : List LogCall) (st : LoggerState)
    (hopen : st.queueClosed = false)
    (hfull : ¬ st.queue.length < queueCapacity) :
    runCalls st calls = st := by
  induction calls with
  | nil => rfl
  | cons c cs ih =>
    rw [runCalls_cons, logWrapper_drops st c.level c.format c.args hopen hfull, ih]

theorem drainStep_pop (st : LoggerState) (op : logOperation) (rest : List logOperation)
    (hq : st.queue = op :: rest) (hd : ¬ st.drainerStartCount = 0) :
    drainStep st = sublogWrapper { st with queue := rest } op.level op.message := by
  unfold drainStep
  rw [if_neg hd, hq]

theorem drain_batch (q : List logOperation) (st : LoggerState)
    (hq : st.queue = q)
    (hd : ¬ st.drainerStartCount = 0)
    (he : st.exited = false) (hp : st.panicked = false)
    (hplain : ∀ op ∈ q,
      resolveLevel op.level ≠ SinkLevel.fatal ∧ resolveLevel op.level ≠ SinkLevel.panic) :
    run (List.replicate q.length Op.drain) st
      = { st with queue := [], sink := st.sink ++ q.map opEntry } := by
  induction q generalizing st with
  | nil =>
    obtain ⟨qu, qc, cc, dc, sk, ex, pk⟩ := st
    simp only at hq
    subst hq
    simp [run_nil]
  | cons op rest ih =>
    rw [List.length_cons, List.replicate_succ, run_cons, applyOp_drain st he hp]
    rw [drainStep_pop st op rest hq hd,
      sublogWrapper_of_plain _ _ _ (hplain op (by simp)).1 (hplain op (by simp)).2]
    rw [ih { st with
        queue := rest
        sink := st.sink ++ [⟨resolveLevel op.level, op.message⟩] }
      rfl hd he hp (fun o ho => hplain o (by simp [ho]))]
    simp [opEntry, List.append_assoc]

theorem applyOp_closed_mono (st : LoggerState) (op : Op)
    (h : st.queueClosed = true) : (applyOp st op).queueClosed = true := by
  by_cases hdead : st.exited = true ∨ st.panicked = true
  · rw [applyOp_dead st op hdead]
    exact h
  · push_neg at hdead
    have he : st.exited = false := by
      simpa [Bool.not_eq_true] using hdead.1
    have hp : st.panicked = false := by
      simpa [Bool.not_eq_true] using hdead.2
    cases op with
    | log lv f a =>
      rw [applyOp_log st lv f a he hp, logWrapper_direct st lv f a h,
        sublogWrapper_queueClosed]
      exact h
    | markInit =>
      rw [applyOp_markInit st he hp, MarkInitialized_closed st h]
      exact h
    | drain =>
      rw [applyOp_drain st he hp]
      by_cases hz : st.drainerStartCount = 0
      · rw [drainStep_noDrainer st hz]
        exact h
      · cases hq : st.queue with
        | nil =>
          rw [drainStep_empty st hz hq]
          exact h
        | cons op1 rest =>
          rw [drainStep_pop st op1 rest hq hz, sublogWrapper_queueClosed]
          exact h

theorem run_closed_mono (ops : List Op) (st : LoggerState)
    (h : st.queueClosed = true) : (run ops st).queueClosed = true := by
  induction ops generalizing st with
  | nil => exact h
  | cons op ops ih => rw [run_cons]; exact ih _ (applyOp_closed_mono st op h)

theorem applyOp_closeCount_inv (st : LoggerState) (op : Op)
    (h : st.closeCount = if st.queueClosed = true then 1 else 0) :
    (applyOp st op).closeCount
      = if (applyOp st op).queueClosed = true then 1 else 0 := by
  by_cases hdead : st.exited = true ∨ st.panicked = true
  · rw [applyOp_dead st op hdead]
    exact h
  · push_neg at hdead
    have he : st.exited = false := by
      simpa [Bool.not_eq_true] using hdead.1
    have hp : st.panicked = false := by
      simpa [Bool.not_eq_true] using hdead.2
    cases op with
    | log lv f a =>
      rw [applyOp_log st lv f a he hp]
      cases hb : st.queueClosed with
      | true =>
        rw [logWrapper_direct st lv f a hb, sublogWrapper_closeCount,
          sublogWrapper_queueClosed]
        exact h
      | false =>
        by_cases hroom : st.queue.length < queueCapacity
        · rw [logWrapper_buffers st lv f a hb hroom]
          exact h
        · rw [logWrapper_drops st lv f a hb hroom]
          exact h
    | markInit =>
      rw [applyOp_markInit st he hp]
      cases hb : st.queueClosed with
      | true =>
        rw [MarkInitialized_closed st hb]
        exact h
      | false =>
        rw [MarkInitialized_open st hb]
        rw [hb] at h
        simp at h
        simp [h]
    | drain =>
      rw [applyOp_drain st he hp]
      by_cases hz : st.drainerStartCount = 0
      · rw [drainStep_noDrainer st hz]
        exact h
      · cases hq : st.queue with
        | nil =>
          rw [drainStep_empty st hz hq]
          exact h
        | cons op1 rest =>
          rw [drainStep_pop st op1 rest hq hz, sublogWrapper_closeCount,
            sublogWrapper_queueClosed]
          exact h

theorem run_closeCount_inv (ops : List Op) (st : LoggerState)
    (h : st.closeCount = if st.queueClosed = true then 1 else 0) :
    (run ops st).closeCount = if (run ops st).queueClosed = true then 1 else 0 := by
  induction ops generalizing st with
  | nil => exact h
  | cons op ops ih => rw [run_cons]; exact ih _ (applyOp_closeCount_inv st op h)

theorem run_markInit_closed (k : Nat) (st : LoggerState)
    (hclosed : st.queueClosed = true) (he : st.exited = false) (hp : st.panicked = false) :
    run (List.replicate k Op.markInit) st
      = { st with sink := st.sink ++ List.replicate k initEntry } := by
  induction k generalizing st with
  | zero => simp [run_nil]
  | succ k ih =>
    rw [List.replicate_succ, run_cons, applyOp_markInit st he hp,
      MarkInitialized_closed st hclosed,
      ih { st with sink := st.sink ++ [initEntry] } hclosed he hp]
    simp [List.replicate_succ, List.append_assoc]

/-!
Claim theorems.
-/

/-- Claim C1: the claim fails on the code.  `MarkInitialized` starts the
drainer with a detached `go processQueue()` and returns without waiting
for it, so a record written on the Direct path after the transition can
reach the sink before the drained backlog records.  In the schedule
below, record a is enqueued before the transition, record b is logged
through the Direct path after `MarkInitialized` returned, and the
drainer goroutine is only scheduled afterwards: the sink receives the
Logger initialized record and b strictly before the backlog record a,
contradicting the claimed ordering guarantee. -/
theorem direct_record_overtakes_backlog :
    (run [Op.log "info" "a" [], Op.markInit, Op.log "info" "b" [], Op.drain] initState).sink
      = [⟨SinkLevel.info, "Logger initialized"⟩, ⟨SinkLevel.info, "b"⟩,
          ⟨SinkLevel.info, "a"⟩] := by
  decide

/-- Claim C2: the claim fails on the code.  `logWrapper` reads the atomic
`queueClosed` on one line and sends on the channel inside the select on
the next, with no synchronization against `MarkInitialized` closing the
channel in between.  In the interleaving below the logging goroutine
loads `queueClosed` as false, `MarkInitialized` then stores true and
closes the channel, and the logging goroutine resumes with its stale
load and executes the send case of the select on the closed channel,
which is a runtime panic per the Go specification. -/
theorem send_on_closed_channel_panics :
    (fineRun [FineStep.loggerLoad, FineStep.initLoad, FineStep.initStore,
      FineStep.initClose, FineStep.loggerResume] fineInit).panicked = true := by
  decide

/-- Claim C3 counterexample: calling `MarkInitialized` twice is not
observably equal to calling it once, and it does not emit exactly one
Logger initialized record: the source logs that record at the end of
every call, outside the guard, so the second call writes a second copy
directly to the sink. -/
theorem markInitialized_twice_two_records :
    (run [Op.markInit, Op.markInit] initState).sink.count initEntry = 2
  ∧ ¬ (run [Op.markInit, Op.markInit] initState).sink
      = (run [Op.markInit] initState).sink := by
  decide

/-- Claim C3 amended: only the first `MarkInitialized` call performs the
transition, with exactly one queue close and exactly one drainer start
no matter how many times it is called, and no call after the first is an
error; however every call, not only the first, emits one Logger
initialized record. -/
theorem markInitialized_first_call_transitions (n : Nat) (h : 1 ≤ n) :
    (run (List.replicate n Op.markInit) initState).closeCount = 1
  ∧ (run (List.replicate n Op.markInit) initState).drainerStartCount = 1
  ∧ (run (List.replicate n Op.markInit) initState).queueClosed = true
  ∧ (run (List.replicate n Op.markInit) initState).sink = List.replicate n initEntry
  ∧ (run (List.replicate n Op.markInit) initState).exited = false
  ∧ (run (List.replicate n Op.markInit) initState).panicked = false := by
  obtain ⟨k, rfl⟩ : ∃ k, n = k + 1 := ⟨n - 1, by omega⟩
  have h1 : applyOp initState Op.markInit
      = ⟨[], true, 1, 1, [initEntry], false, false⟩ := by decide
  rw [List.replicate_succ, run_cons, h1,
    run_markInit_closed k ⟨[], true, 1, 1, [initEntry], false, false⟩ rfl rfl rfl]
  simp [List.replicate_succ]

/-- A closed instance of the amended C3 theorem at two calls. -/
theorem markInitialized_first_call_transitions_witness :
    1 ≤ 2
  ∧ ((run (List.replicate 2 Op.markInit) initState).closeCount = 1
      ∧ (run (List.replicate 2 Op.markInit) initState).drainerStartCount = 1
      ∧ (run (List.replicate 2 Op.markInit) initState).queueClosed = true
      ∧ (run (List.replicate 2 Op.markInit) initState).sink = List.replicate 2 initEntry
      ∧ (run (List.replicate 2 Op.markInit) initState).exited = false
      ∧ (run (List.replicate 2 Op.markInit) initState).panicked = false) :=
  ⟨by decide, markInitialized_first_call_transitions 2 (by decide)⟩

theorem runCalls_append (st : LoggerState) (l1 l2 : List LogCall) :
    runCalls st (l1 ++ l2) = runCalls (runCalls st l1) l2 := by
  unfold runCalls
  exact List.foldl_append _ _ _ _

theorem opEntry_comp_callRecord : opEntry ∘ callRecord = callEntry :=
  funext (fun _ => rfl)

theorem init_then_drain (q : List logOperation)
    (hplain : ∀ op ∈ q,
      resolveLevel op.level ≠ SinkLevel.fatal ∧ resolveLevel op.level ≠ SinkLevel.panic) :
    processQueue (MarkInitialized { initState with queue := q })
      = ⟨[], true, 1, 1, initEntry :: q.map opEntry, false, false⟩ := by
  have h2 : MarkInitialized { initState with queue := q }
      = ⟨q, true, 1, 1, [initEntry], false, false⟩ := by
    rw [MarkInitialized_open _ rfl]
    simp [initState]
  rw [h2]
  unfold processQueue
  have h3 := drain_batch q ⟨q, true, 1, 1, [initEntry], false, false⟩ rfl
    (by simp) rfl rfl hplain
  rw [show (⟨q, true, 1, 1, [initEntry], false, false⟩ : LoggerState).queue = q from rfl, h3]
  simp

/-- Claim C4 counterexample: a pre-initialization sequence of N = 2 calls
with N below the capacity in which the first call is a `LogFatal`.  When
the drainer hands that record to the sink, zerolog terminates the
process, so the second buffered record never appears in the sink output,
against the claimed exactly-once delivery for every such sequence. -/
theorem buffered_fatal_halts_drain :
    SinkEntry.mk SinkLevel.info "after" ∉
      (processQueue (MarkInitialized (runCalls initState
        [⟨"fatal", "boom", []⟩, ⟨"info", "after", []⟩]))).sink := by
  decide

/-- Claim C4 amended: for every sequence of at most capacity many
pre-initialization calls whose levels are not fatal and not panic, every
record appears in the sink exactly once, in call order, after the
transition and a complete drain; the sink output is exactly the Logger
initialized record followed by the buffered records in order. -/
theorem buffered_batch_delivered_in_order (calls : List LogCall)
    (hlen : calls.length ≤ queueCapacity)
    (hplain : ∀ c ∈ calls, c.level ≠ "fatal" ∧ c.level ≠ "panic") :
    (processQueue (MarkInitialized (runCalls initState calls))).sink
        = initEntry :: calls.map callEntry
  ∧ (processQueue (MarkInitialized (runCalls initState calls))).queue = [] := by
  have hq : runCalls initState calls = { initState with queue := calls.map callRecord } := by
    have := runCalls_buffers calls initState rfl (by simpa [initState] using hlen)
    simpa [initState] using this
  have hplain2 : ∀ op ∈ calls.map callRecord,
      resolveLevel op.level ≠ SinkLevel.fatal ∧ resolveLevel op.level ≠ SinkLevel.panic := by
    intro op hop
    obtain ⟨c, hc, rfl⟩ := List.mem_map.mp hop
    exact ⟨resolveLevel_ne_fatal _ (hplain c hc).1, resolveLevel_ne_panic _ (hplain c hc).2⟩
  rw [hq, init_then_drain (calls.map callRecord) hplain2]
  constructor
  · show initEntry :: (calls.map callRecord).map opEntry = initEntry :: calls.map callEntry
    rw [List.map_map, opEntry_comp_callRecord]
  · rfl

/-- A closed instance of the amended C4 theorem at two concrete calls. -/
theorem buffered_batch_delivered_in_order_witness :
    (processQueue (MarkInitialized (runCalls initState
        [⟨"info", "a", []⟩, ⟨"warn", "b %v", ["x"]⟩]))).sink
        = initEntry :: ([⟨"info", "a", []⟩, ⟨"warn", "b %v", ["x"]⟩] : List LogCall).map callEntry
  ∧ (processQueue (MarkInitialized (runCalls initState
        [⟨"info", "a", []⟩, ⟨"warn", "b %v", ["x"]⟩]))).queue = [] :=
  buffered_batch_delivered_in_order [⟨"info", "a", []⟩, ⟨"warn", "b %v", ["x"]⟩]
    (by decide) (by decide)

set_option maxRecDepth 40000 in
/-- Claim C5 counterexample: 101 calls before initialization, the first
being a `LogFatal`.  The earliest 100 records are buffered (the 101st is
dropped), but when the drainer hands the fatal record to the sink the
process terminates, so the 99 Info records among the earliest 100 never
reach the sink: it is not the case that exactly the earliest capacity
many records reach the sink for every overflowing sequence. -/
theorem overflow_earliest_with_fatal_lost :
    SinkEntry.mk SinkLevel.info "m" ∉
      (processQueue (MarkInitialized (runCalls initState
        (⟨"fatal", "boom", []⟩ :: List.replicate 100 ⟨"info", "m", []⟩)))).sink := by
  decide

/-- Claim C5 amended: for every sequence of more than capacity many
pre-initialization calls whose earliest capacity many levels are not
fatal and not panic, exactly the earliest capacity many records reach
the sink in order (drop-newest policy), the rest never appear, and no
error, exit or panic is observable. -/
theorem overflow_drops_newest (calls : List LogCall)
    (hlen : queueCapacity < calls.length)
    (hplain : ∀ c ∈ calls.take queueCapacity, c.level ≠ "fatal" ∧ c.level ≠ "panic") :
    (processQueue (MarkInitialized (runCalls initState calls))).sink
        = initEntry :: (calls.take queueCapacity).map callEntry
  ∧ (processQueue (MarkInitialized (runCalls initState calls))).exited = false
  ∧ (processQueue (MarkInitialized (runCalls initState calls))).panicked = false := by
  have hsplit : calls = calls.take queueCapacity ++ calls.drop queueCapacity :=
    (List.take_append_drop queueCapacity calls).symm
  have htlen : (calls.take queueCapacity).length = queueCapacity := by
    rw [List.length_take]
    omega
  have hq : runCalls initState (calls.take queueCapacity)
      = { initState with queue := (calls.take queueCapacity).map callRecord } := by
    have := runCalls_buffers (calls.take queueCapacity) initState rfl
      (by rw [htlen]; simp [initState])
    simpa [initState] using this
  have hdrop : runCalls { initState with queue := (calls.take queueCapacity).map callRecord }
      (calls.drop queueCapacity)
      = { initState with queue := (calls.take queueCapacity).map callRecord } := by
    apply runCalls_drops
    · rfl
    · simp only [List.length_map, htlen]
      omega
  have hplain2 : ∀ op ∈ (calls.take queueCapacity).map callRecord,
      resolveLevel op.level ≠ SinkLevel.fatal ∧ resolveLevel op.level ≠ SinkLevel.panic := by
    intro op hop
    obtain ⟨c, hc, rfl⟩ := List.mem_map.mp hop
    exact ⟨resolveLevel_ne_fatal _ (hplain c hc).1, resolveLevel_ne_panic _ (hplain c hc).2⟩
  rw [show runCalls initState calls
      = runCalls initState (calls.take queueCapacity ++ calls.drop queueCapacity) from by
        rw [← hsplit],
    runCalls_append, hq, hdrop, init_then_drain _ hplain2]
  refine ⟨?_, rfl, rfl⟩
  show initEntry :: ((calls.take queueCapacity).map callRecord).map opEntry
      = initEntry :: (calls.take queueCapacity).map callEntry
  rw [List.map_map, opEntry_comp_callRecord]

/-- A closed instance of the amended C5 theorem at 101 concrete calls. -/
theorem overflow_drops_newest_witness :
    (processQueue (MarkInitialized (runCalls initState
        (List.replicate 101 (⟨"info", "m", []⟩ : LogCall))))).sink
        = initEntry :: ((List.replicate 101 (⟨"info", "m", []⟩ : LogCall)).take
            queueCapacity).map callEntry
  ∧ (processQueue (MarkInitialized (runCalls initState
        (List.replicate 101 (⟨"info", "m", []⟩ : LogCall))))).exited = false
  ∧ (processQueue (MarkInitialized (runCalls initState
        (List.replicate 101 (⟨"info", "m", []⟩ : LogCall))))).panicked = false :=
  overflow_drops_newest (List.replicate 101 ⟨"info", "m", []⟩) (by decide) (by decide)

/-- Claim C6: the lifecycle transitions at most once.  Once `queueClosed`
is true, no sequence of facade calls, `MarkInitialized` calls or drainer
steps ever returns it to false, and along every schedule from the
initial state the queue has been closed exactly once when the state is
Direct and never otherwise, so it is closed at most once and never
reopened. -/
theorem lifecycle_transitions_at_most_once :
    (∀ (st : LoggerState) (ops : List Op),
      st.queueClosed = true → (run ops st).queueClosed = true)
  ∧ (∀ ops : List Op,
      (run ops initState).closeCount
        = if (run ops initState).queueClosed = true then 1 else 0) := by
  constructor
  · exact fun st ops h => run_closed_mono ops st h
  · exact fun ops => run_closeCount_inv ops initState (by decide)

/-- A closed instance of the C6 theorem: from a Direct state, a facade
call leaves the state Direct. -/
theorem lifecycle_transitions_at_most_once_witness :
    (run [Op.log "info" "x" []] { initState with queueClosed := true }).queueClosed = true :=
  lifecycle_transitions_at_most_once.1 { initState with queueClosed := true }
    [Op.log "info" "x" []] rfl

/-- Claim C7: `logWrapper` formats the template and arguments into the
final message string eagerly, before consulting `queueClosed` and before
any enqueue or sink write: on the buffering path the stored record
already carries the formatted string, and on the direct path the sink
receives the very same string, so the delivered message is identical on
both paths. -/
theorem message_formatted_at_call_time (lv f : String) (args : List String)
    (stB stD : LoggerState)
    (hopen : stB.queueClosed = false) (hroom : stB.queue.length < queueCapacity)
    (hclosed : stD.queueClosed = true) :
    (logWrapper stB lv f args).queue = stB.queue ++ [⟨lv, sprintf f args⟩]
  ∧ (logWrapper stB lv f args).sink = stB.sink
  ∧ (logWrapper stD lv f args).sink = stD.sink ++ [⟨resolveLevel lv, sprintf f args⟩]
  ∧ (logWrapper stD lv f args).queue = stD.queue := by
  refine ⟨?_, ?_, ?_, ?_⟩
  · rw [logWrapper_buffers stB lv f args hopen hroom]
  · rw [logWrapper_buffers stB lv f args hopen hroom]
  · rw [logWrapper_direct stD lv f args hclosed, sublogWrapper_sink]
  · rw [logWrapper_direct stD lv f args hclosed, sublogWrapper_queue]

/-- A closed instance of the C7 theorem at a concrete formatted call on
a buffering state and on a direct state. -/
theorem message_formatted_at_call_time_witness :
    (logWrapper initState "info" "hi %v" ["w"]).queue
        = initState.queue ++ [⟨"info", sprintf "hi %v" ["w"]⟩]
  ∧ (logWrapper initState "info" "hi %v" ["w"]).sink = initState.sink
  ∧ (logWrapper { initState with queueClosed := true } "info" "hi %v" ["w"]).sink
        = ({ initState with queueClosed := true } : LoggerState).sink
          ++ [⟨resolveLevel "info", sprintf "hi %v" ["w"]⟩]
  ∧ (logWrapper { initState with queueClosed := true } "info" "hi %v" ["w"]).queue
        = ({ initState with queueClosed := true } : LoggerState).queue :=
  message_formatted_at_call_time "info" "hi %v" ["w"] initState
    { initState with queueClosed := true } rfl (by decide) rfl

/-- Claim C8: every `logWrapper` call performs exactly one of enqueue,
drop, or direct sink write.  The three disjuncts describe the outcomes;
each holds together with the negation of the descriptions of the other
two, so exactly one occurs.  In the drop case the state is entirely
unchanged: no error is recorded and, the model being a total function,
the caller is never blocked. -/
theorem log_call_exactly_one_outcome (st : LoggerState) (lv f : String) (args : List String) :
    ((logWrapper st lv f args).queue = st.queue ++ [⟨lv, sprintf f args⟩]
        ∧ (logWrapper st lv f args).sink = st.sink
        ∧ ¬ logWrapper st lv f args = st
        ∧ ¬ (logWrapper st lv f args).sink = st.sink ++ [⟨resolveLevel lv, sprintf f args⟩])
  ∨ (logWrapper st lv f args = st
        ∧ ¬ (logWrapper st lv f args).queue = st.queue ++ [⟨lv, sprintf f args⟩]
        ∧ ¬ (logWrapper st lv f args).sink = st.sink ++ [⟨resolveLevel lv, sprintf f args⟩])
  ∨ ((logWrapper st lv f args).queue = st.queue
        ∧ (logWrapper st lv f args).sink = st.sink ++ [⟨resolveLevel lv, sprintf f args⟩]
        ∧ ¬ logWrapper st lv f args = st
        ∧ ¬ (logWrapper st lv f args).queue = st.queue ++ [⟨lv, sprintf f args⟩]) := by
  cases hb : st.queueClosed with
  | false =>
    by_cases hroom : st.queue.length < queueCapacity
    · rw [logWrapper_buffers st lv f args hb hroom]
      refine Or.inl ⟨rfl, rfl, ?_, ?_⟩
      · intro hEq
        have := congrArg List.length (congrArg LoggerState.queue hEq)
        simp at this
      · intro hEq
        have := congrArg List.length hEq
        simp at this
    · rw [logWrapper_drops st lv f args hb hroom]
      refine Or.inr (Or.inl ⟨rfl, ?_, ?_⟩)
      · intro hEq
        have := congrArg List.length hEq
        simp at this
      · intro hEq
        have := congrArg List.length hEq
        simp at this
  | true =>
    rw [logWrapper_direct st lv f args hb]
    refine Or.inr (Or.inr ⟨sublogWrapper_queue st lv _, sublogWrapper_sink st lv _, ?_, ?_⟩)
    · intro hEq
      have := congrArg List.length (congrArg LoggerState.sink hEq)
      rw [sublogWrapper_sink] at this
      simp at this
    · intro hEq
      rw [sublogWrapper_queue] at hEq
      have := congrArg List.length hEq
      simp at this

/-- A closed instance of the C8 theorem on the initial state. -/
theorem log_call_exactly_one_outcome_witness :
    ((logWrapper initState "info" "x" []).queue
          = initState.queue ++ [⟨"info", sprintf "x" []⟩]
        ∧ (logWrapper initState "info" "x" []).sink = initState.sink
        ∧ ¬ logWrapper initState "info" "x" [] = initState
        ∧ ¬ (logWrapper initState "info" "x" []).sink
            = initState.sink ++ [⟨resolveLevel "info", sprintf "x" []⟩])
  ∨ (logWrapper initState "info" "x" [] = initState
        ∧ ¬ (logWrapper initState "info" "x" []).queue
            = initState.queue ++ [⟨"info", sprintf "x" []⟩]
        ∧ ¬ (logWrapper initState "info" "x" []).sink
            = initState.sink ++ [⟨resolveLevel "info", sprintf "x" []⟩])
  ∨ ((logWrapper initState "info" "x" []).queue = initState.queue
        ∧ (logWrapper initState "info" "x" []).sink
            = initState.sink ++ [⟨resolveLevel "info", sprintf "x" []⟩]
        ∧ ¬ logWrapper initState "info" "x" [] = initState
        ∧ ¬ (logWrapper initState "info" "x" []).queue
            = initState.queue ++ [⟨"info", sprintf "x" []⟩]) :=
  log_call_exactly_one_outcome initState "info" "x" []

theorem sublogWrapper_fatal_exits (st : LoggerState) (m : String) :
    (sublogWrapper st "fatal" m).exited = true := by
  have h : resolveLevel "fatal" = SinkLevel.fatal := by decide
  simp [sublogWrapper, h]

theorem sublogWrapper_panic_panics (st : LoggerState) (m : String) :
    (sublogWrapper st "panic" m).panicked = true := by
  have h : resolveLevel "panic" = SinkLevel.panic := by decide
  simp [sublogWrapper, h]

/-- Claim C9: when a fatal or panic record is handed to the sink path,
the sink receives the record and the process then terminates
respectively the stack unwinds; and the routing decision of `logWrapper`
is identical for every level: for any state, a fatal or panic call
changes the queue length and sink length exactly as a call at any other
level does, with no special buffering bypass. -/
theorem fatal_panic_terminate_after_handoff (st : LoggerState) (lv m f : String)
    (args : List String) (h : lv = "fatal" ∨ lv = "panic") :
    ((sublogWrapper st lv m).sink = st.sink ++ [⟨resolveLevel lv, m⟩]
        ∧ ((sublogWrapper st lv m).exited = true ∨ (sublogWrapper st lv m).panicked = true))
  ∧ (∀ lv2 : String,
        (logWrapper st lv f args).queue.length = (logWrapper st lv2 f args).queue.length
      ∧ (logWrapper st lv f args).sink.length = (logWrapper st lv2 f args).sink.length) := by
  constructor
  · refine ⟨sublogWrapper_sink st lv m, ?_⟩
    rcases h with h | h
    · subst h
      exact Or.inl (sublogWrapper_fatal_exits st m)
    · subst h
      exact Or.inr (sublogWrapper_panic_panics st m)
  · intro lv2
    cases hb : st.queueClosed with
    | false =>
      by_cases hroom : st.queue.length < queueCapacity
      · rw [logWrapper_buffers st lv f args hb hroom,
          logWrapper_buffers st lv2 f args hb hroom]
        simp
      · rw [logWrapper_drops st lv f args hb hroom,
          logWrapper_drops st lv2 f args hb hroom]
        exact ⟨rfl, rfl⟩
    | true =>
      rw [logWrapper_direct st lv f args hb, logWrapper_direct st lv2 f args hb]
      constructor
      · rw [sublogWrapper_queue, sublogWrapper_queue]
      · rw [sublogWrapper_sink, sublogWrapper_sink]
        simp

/-- A closed instance of the C9 theorem for a fatal call on the initial
state, compared against the info level. -/
theorem fatal_panic_terminate_after_handoff_witness :
    ((sublogWrapper initState "fatal" "x").sink
          = initState.sink ++ [⟨resolveLevel "fatal", "x"⟩]
        ∧ ((sublogWrapper initState "fatal" "x").exited = true
            ∨ (sublogWrapper initState "fatal" "x").panicked = true))
  ∧ (∀ lv2 : String,
        (logWrapper initState "fatal" "y" []).queue.length
            = (logWrapper initState lv2 "y" []).queue.length
      ∧ (logWrapper initState "fatal" "y" []).sink.length
            = (logWrapper initState lv2 "y" []).sink.length) :=
  fatal_panic_terminate_after_handoff initState "fatal" "x" "y" [] (Or.inl rfl)

/-- Claim C10: the sink dispatcher is total over level strings: a record
whose level is none of the seven recognized strings resolves to the Info
level and is written to the sink rather than rejected, and every level
string whatsoever results in exactly one sink write. -/
theorem unknown_level_dispatches_info (lv m : String) (st : LoggerState)
    (h : lv ∉ ["trace", "debug", "info", "warn", "error", "fatal", "panic"]) :
    resolveLevel lv = SinkLevel.info
  ∧ (sublogWrapper st lv m).sink = st.sink ++ [⟨SinkLevel.info, m⟩]
  ∧ ∀ lv2 : String, (sublogWrapper st lv2 m).sink.length = st.sink.length + 1 := by
  obtain ⟨h1, h2, h3, h4, h5, h6, h7⟩ :
      lv ≠ "trace" ∧ lv ≠ "debug" ∧ lv ≠ "info" ∧ lv ≠ "warn"
        ∧ lv ≠ "error" ∧ lv ≠ "fatal" ∧ lv ≠ "panic" := by
    simpa using h
  have hres : resolveLevel lv = SinkLevel.info := by
    unfold resolveLevel
    rw [if_neg h2, if_neg h3, if_neg h4, if_neg h5, if_neg h6, if_neg h7, if_neg h1]
  refine ⟨hres, ?_, ?_⟩
  · rw [sublogWrapper_of_plain st lv m (by rw [hres]; decide) (by rw [hres]; decide), hres]
  · intro lv2
    rw [sublogWrapper_sink]
    simp

/-- A closed instance of the C10 theorem at an unrecognized level. -/
theorem unknown_level_dispatches_info_witness :
    resolveLevel "verbose" = SinkLevel.info
  ∧ (sublogWrapper initState "verbose" "x").sink
        = initState.sink ++ [⟨SinkLevel.info, "x"⟩]
  ∧ ∀ lv2 : String, (sublogWrapper initState lv2 "x").sink.length
        = initState.sink.length + 1 :=
  unknown_level_dispatches_info "verbose" "x" initState (by decide)

end Logger
